import Mathlib

/-!
Shallow embedding of `main.py` from the palettePal repository.

The program is a linear pipeline: load an image, extract its dominant colors
with k-means, read EXIF metadata, and compose an annotated output image.

Modelling conventions:
* Python ints are `ℤ`/`ℕ`.  Python floats appear in two ways: float
  constants and values converted exactly (`Fraction(float)`, the ratio
  constants `0.1`, `0.08`, `0.2`) are modelled as `ℚ` carrying their exact
  value, while the swatch loop's accumulator — where rounding error is
  observable — is modelled by exact binary64 arithmetic: every operation
  is the exact rational result rounded to the nearest IEEE-754 double
  (`roundDouble`, round to nearest, ties to even).
* The calls into PIL (`Image.open`, `thumbnail`) and sklearn (`KMeans.fit`)
  are modelled at the interface the source uses: `Image.open` is an
  `Option PILImage` input (`none` = unreadable path raises), the flattened
  pixel array of the downscaled copy and the k-means labelling/centers are
  explicit function parameters (oracles), while sklearn's own input
  validation (`n_clusters` must be a positive integer and must not exceed
  `n_samples`, otherwise `fit` raises) is embedded directly.
* Side effects (`print`, `Image.save`, `Image.show`) are collected in an
  effect trace; a Python exception aborts the run, so a failing stage
  returns the trace accumulated so far and no final image.
-/

namespace PalettePal

/-- An RGB pixel: three 8-bit channel values (`image.convert("RGB")`). -/
abbrev RGB := ℕ × ℕ × ℕ

/-- The result of a successful `Image.open`: we only need its dimensions;
pixel content enters through the `resized` oracle below. -/
structure PILImage where
  width : ℕ
  height : ℕ
  deriving DecidableEq

/-! ### PIL `Image.thumbnail((200, 200), LANCZOS)` size computation

Translated from Pillow's `Image.thumbnail`: it returns unchanged when the
image already fits in the box, otherwise scales the larger side down to 200
and rounds the other side to the aspect-ratio-nearest of floor/ceil
(clamped to at least 1).  The float `aspect` is modelled as the exact
rational `w / h`. -/

/-- Pillow's `round_aspect(number, key)`:
`max(min(math.floor(number), math.ceil(number), key=key), 1)`;
Python's `min` keeps the first argument (the floor) on a key tie. -/
def roundAspect (x : ℚ) (key : ℤ → ℚ) : ℤ :=
  max (if key ⌊x⌋ ≤ key ⌈x⌉ then ⌊x⌋ else ⌈x⌉) 1

/-- Size of the downscaled copy produced by `small_image.thumbnail((200, 200))`. -/
def thumbDims (w h : ℕ) : ℕ × ℕ :=
  if 200 ≥ w ∧ 200 ≥ h then (w, h)
  else
    let aspect : ℚ := (w : ℚ) / (h : ℚ)
    if (200 : ℚ) / 200 ≥ aspect then
      let x := roundAspect (200 * aspect) (fun n => |aspect - (n : ℚ) / 200|)
      (x.toNat, 200)
    else
      let y := roundAspect (200 / aspect)
        (fun n => if n = 0 then 300 else |aspect - (200 : ℚ) / (n : ℚ)|)
      (200, y.toNat)

/-! ### `get_dominant_colors` -/

/-- Model of `np.unique(labels)`: the distinct label values in ascending order. -/
def uniqueSorted (l : List ℕ) : List ℕ :=
  List.insertionSort (· ≤ ·) l.dedup

/-- Model of `np.argsort(-counts)`: positions of `cs` ordered by descending value
(`np.argsort`'s tie order is unspecified; any sort realises the model). -/
def argsortDesc (cs : List ℕ) : List ℕ :=
  List.insertionSort (fun i j => cs.getD j 0 ≤ cs.getD i 0) (List.range cs.length)

/-- Lines 23-31 of `main.py`: `labels, counts = np.unique(kmeans.labels_,
return_counts=True)`, `sorted_indices = np.argsort(-counts)`, and the fancy
indexing `dominant_colors[sorted_indices]`, `counts[sorted_indices]`,
returned as a list of (color, count) samples. -/
def postProcess (labels : List ℕ) (centers : List RGB) : List (RGB × ℕ) :=
  let uniq := uniqueSorted labels
  let cs := uniq.map fun j => labels.count j
  (argsortDesc cs).map fun i => (centers.getD i (0, 0, 0), cs.getD i 0)

/-- Whether an `Except` is the exception case. -/
def isErr {ε α : Type} : Except ε α → Bool
  | Except.error _ => true
  | Except.ok _ => false

/-- Model of `get_dominant_colors(image_path, k)`.
`img?` is the outcome of `Image.open` (`none` = the open raises),
`resized img` is the flattened RGB pixel list of the downscaled copy, and
`kmLabels`/`kmCenters` are the labelling and integer-truncated centroids
produced by `KMeans(n_clusters=k, n_init=10).fit`.  sklearn's `fit` raises
when `n_clusters < 1` or when `n_samples < n_clusters`; otherwise it
returns one label per sample. -/
def getDominantColors (img? : Option PILImage) (k : ℤ)
    (resized : PILImage → List RGB)
    (kmLabels : List RGB → ℕ → List ℕ)
    (kmCenters : List RGB → ℕ → List RGB) :
    Except String (List (RGB × ℕ)) :=
  match img? with
  | none => Except.error "cannot identify image file"
  | some img =>
    if k < 1 then
      Except.error "n_clusters should be an int in the range [1, inf)"
    else if ((resized img).length : ℤ) < k then
      Except.error "n_samples should be >= n_clusters"
    else
      Except.ok (postProcess (kmLabels (resized img) k.toNat)
        (kmCenters (resized img) k.toNat))

/-! ### `get_exif_data` -/

/-- A Python value stored in the EXIF dictionary or metadata record.
`f` carries the exact rational value of a Python float. -/
inductive PyVal where
  | s : String → PyVal
  | i : ℤ → PyVal
  | f : ℚ → PyVal
  | pair : ℤ → ℤ → PyVal
  deriving DecidableEq

/-- Python `str()` as used by the f-strings of `main.py`.  The decimal
repr of a float is not modelled (no verified claim depends on it). -/
def pyStr : PyVal → String
  | PyVal.s s => s
  | PyVal.i n => toString n
  | PyVal.f _ => "<float>"
  | PyVal.pair a b => "(" ++ toString a ++ ", " ++ toString b ++ ")"

/-- The continued-fraction loop of CPython's
`Fraction.limit_denominator`: state `(p0, q0, p1, q1)` with remaining
quotient `n/d`; stops when the next convergent's denominator `q2` would
exceed `max_denominator`.  Structural fuel replaces the `while True`
(the loop always breaks before `d` reaches 0 because the convergent
denominators grow past `max_denominator ≥ 1`). -/
def cfLoop (maxDen : ℤ) : ℕ → ℤ → ℤ → ℤ → ℤ → ℤ → ℤ → ℤ × ℤ × ℤ × ℤ
  | 0, p0, q0, p1, q1, _, _ => (p0, q0, p1, q1)
  | fuel + 1, p0, q0, p1, q1, n, d =>
    let a := n.fdiv d
    let q2 := q0 + a * q1
    if maxDen < q2 then (p0, q0, p1, q1)
    else cfLoop maxDen fuel p1 q1 (p0 + a * p1) q2 d (n - a * d)

/-- CPython's `Fraction.limit_denominator(max_denominator)`: the closest
fraction with denominator at most `maxDen` (the bounded-denominator
search over continued-fraction convergents). -/
def limitDenominator (x : ℚ) (maxDen : ℕ) : ℚ :=
  if x.den ≤ maxDen then x
  else
    let r := cfLoop (maxDen : ℤ) 200 0 1 1 0 x.num (x.den : ℤ)
    let p0 := r.1
    let q0 := r.2.1
    let p1 := r.2.2.1
    let q1 := r.2.2.2
    let k := ((maxDen : ℤ) - q0).fdiv q1
    let bound1 : ℚ := ((p0 + k * p1 : ℤ) : ℚ) / ((q0 + k * q1 : ℤ) : ℚ)
    let bound2 : ℚ := (p1 : ℚ) / (q1 : ℚ)
    if |bound2 - x| ≤ |bound1 - x| then bound2 else bound1

/-- Lines 52-60 of `main.py`: shutter-speed display normalisation.
A `(numerator, denominator)` tuple renders as `"N/D sec"`; a float is
converted by `Fraction(v).limit_denominator()` (default bound 10^6) and
rendered the same way; anything else passes through unchanged. -/
def formatShutter : PyVal → PyVal
  | PyVal.pair a b => PyVal.s (toString a ++ "/" ++ toString b ++ " sec")
  | PyVal.f x =>
    let fr := limitDenominator x 1000000
    PyVal.s (toString fr.num ++ "/" ++ toString fr.den ++ " sec")
  | v => v

/-- Model of `get_exif_data(image_path)`.  The input is the name-keyed EXIF
dictionary built on line 42 (`none` models `_getexif()` returning `None`;
the empty list is also falsy in `if not exif_data`).  Returns the metadata
record (a dict, i.e. an ordered association list) together with the list
of diagnostic messages printed. -/
def getExifData (exif? : Option (List (String × PyVal))) :
    Option (List (String × PyVal)) × List String :=
  match exif? with
  | none => (none, ["No EXIF data found in the image."])
  | some exifDict =>
    if exifDict.isEmpty then (none, ["No EXIF data found in the image."])
    else
      let aperture := (exifDict.lookup "FNumber").getD (PyVal.s "Unknown")
      let iso := (exifDict.lookup "ISOSpeedRatings").getD (PyVal.s "Unknown")
      let shutterRaw := (exifDict.lookup "ExposureTime").getD (PyVal.s "Unknown")
      let camera := (exifDict.lookup "Model").getD (PyVal.s "Unknown")
      let lens := (exifDict.lookup "LensModel").getD (PyVal.s "Unknown")
      let shutter := formatShutter shutterRaw
      let apertureOut :=
        if aperture = PyVal.s "Unknown" then PyVal.s "Unknown"
        else PyVal.s ("f/" ++ pyStr aperture)
      (some [("Aperture", apertureOut), ("ISO", iso), ("Shutter Speed", shutter),
        ("Camera", camera), ("Lens", lens)], [])

/-- The exact value of the IEEE-754 binary64 literal `0.005`
(the nearest double to 1/200 is `5764607523034235 * 2^-60`). -/
def double005 : ℚ := (5764607523034235 : ℚ) / 1152921504606846976

/-! ### `create_combined_image` -/

/-- The layout constants computed on lines 82-88 of `main.py`.  The float
literals `0.1`, `0.08`, `0.2` are modelled by their exact decimal values;
`int()` on these nonnegative products is `Int.floor`. -/
structure Layout where
  borderWidth : ℕ
  spacingBetween : ℕ
  swatchAreaHeight : ℕ
  exifAreaHeight : ℕ
  newWidth : ℕ
  newHeight : ℕ
  deriving DecidableEq

/-- Lines 82-88: margins, band heights and the output canvas size. -/
def computeLayout (width height : ℕ) : Layout :=
  let borderWidth := (⌊(width : ℚ) * (1 / 10 : ℚ)⌋).toNat
  let spacingBetween := 200
  let swatchAreaHeight := (⌊(height : ℚ) * (8 / 100 : ℚ)⌋).toNat
  let exifAreaHeight := (⌊(height : ℚ) * (2 / 10 : ℚ)⌋).toNat
  ⟨borderWidth, spacingBetween, swatchAreaHeight, exifAreaHeight,
    width + 2 * borderWidth,
    height + spacingBetween + swatchAreaHeight + exifAreaHeight + 2 * borderWidth⟩

/-- Floor of the base-2 logarithm, by structural fuel recursion so the
kernel can evaluate it; `fuel = 256` exceeds the bit length of every
number the program's arithmetic produces. -/
def log2fuel : ℕ → ℕ → ℕ
  | 0, _ => 0
  | fuel + 1, n => if 2 ≤ n then log2fuel fuel (n / 2) + 1 else 0

/-- The binade of the positive rational `a / b`: the unique `e` with
`2 ^ e ≤ a / b < 2 ^ (e + 1)`. -/
def ratExp2 (a b : ℕ) : ℤ :=
  let e0 : ℤ := (log2fuel 256 a : ℤ) - (log2fuel 256 b : ℤ)
  if 0 ≤ e0 then (if b * 2 ^ e0.toNat ≤ a then e0 else e0 - 1)
  else (if b ≤ a * 2 ^ (-e0).toNat then e0 else e0 - 1)

/-- Round the nonnegative fraction `n / d` (with `d > 0`) to the nearest
integer, ties to even. -/
def rndHalfEven (n d : ℕ) : ℕ :=
  let m := n / d
  let r := n % d
  if 2 * r < d then m
  else if d < 2 * r then m + 1
  else if m % 2 = 0 then m else m + 1

/-- Round the positive rational `a / b` to the nearest IEEE-754 binary64
value: the exact result is scaled into the 53-bit mantissa range
`[2^52, 2^53)` of its binade and rounded to nearest, ties to even
(a carry to `2^53` lands exactly on the next binade, which the value
formula already represents). -/
def roundDoublePos (a b : ℕ) : ℚ :=
  let e := ratExp2 a b
  if 0 ≤ 52 - e then
    ((rndHalfEven (a * 2 ^ (52 - e).toNat) b : ℕ) : ℚ) / ((2 ^ (52 - e).toNat : ℕ) : ℚ)
  else
    ((rndHalfEven a (b * 2 ^ (e - 52).toNat) * 2 ^ (e - 52).toNat : ℕ) : ℚ)

/-- Round an exact rational to the nearest IEEE-754 binary64 double
(normal range; the program's swatch arithmetic never reaches overflow or
subnormal magnitudes). -/
def roundDouble (q : ℚ) : ℚ :=
  if q = 0 then 0
  else if 0 < q then roundDoublePos q.num.toNat q.den
  else -roundDoublePos (-q.num).toNat q.den

/-- Binary64 division: the exact quotient, correctly rounded. -/
def fdiv64 (x y : ℚ) : ℚ := roundDouble (x / y)

/-- Binary64 addition: the exact sum, correctly rounded. -/
def fadd64 (x y : ℚ) : ℚ := roundDouble (x + y)

/-- Binary64 multiplication: the exact product, correctly rounded. -/
def fmul64 (x y : ℚ) : ℚ := roundDouble (x * y)

/-- The swatch loop of lines 105-111: `cumulative_ratio` is a Python
float, so `cumulative_ratio += count / total` performs two binary64
roundings (the int/int true division and the addition), and
`int(cumulative_ratio * swatch_area_width)` rounds the product before
truncating; `int()` on these nonnegative floats is `Int.floor`.  Each
count contributes the pair `(x0, x1)` of its rectangle's left and right
x-coordinates. -/
def swatchGo (b W total : ℕ) : ℚ → List ℕ → List (ℕ × ℕ)
  | _, [] => []
  | c, cnt :: rest =>
    let c' := fadd64 c (fdiv64 (cnt : ℚ) (total : ℚ))
    (b + (⌊fmul64 c (W : ℚ)⌋).toNat, b + (⌊fmul64 c' (W : ℚ)⌋).toNat) ::
      swatchGo b W total c' rest

/-- The swatch rectangles drawn by `create_combined_image`:
`cumulative_ratio` starts at `0.0`. -/
def swatchRects (b W total : ℕ) (counts : List ℕ) : List (ℕ × ℕ) :=
  swatchGo b W total 0 counts

/-- The text lines rendered by the EXIF loop on lines 128-130
(`f"{key}: {value}"` per record entry, in dict order); no record, no lines. -/
def renderExifLines : Option (List (String × PyVal)) → List String
  | none => []
  | some r => r.map fun kv => kv.1 ++ ": " ++ pyStr kv.2

/-- An observable side effect of the run. -/
inductive Effect where
  | save : String → Effect
  | display : Effect
  | print : String → Effect
  deriving DecidableEq

/-- The data of the composed output image. -/
structure FinalImage where
  layout : Layout
  swatches : List (ℕ × ℕ)
  exifRecord : Option (List (String × PyVal))
  textLines : List String
  deriving DecidableEq

/-- Model of `create_combined_image(image_path, k)` (lines 70-134).  Returns the
effect trace and, when no stage raised, the composed image.  A raised
exception (unreadable image, sklearn validation error) aborts the run
before the `save`/`show` calls on lines 133-134. -/
def createCombinedImage (img? : Option PILImage)
    (exif? : Option (List (String × PyVal))) (k : ℤ)
    (resized : PILImage → List RGB)
    (kmLabels : List RGB → ℕ → List ℕ)
    (kmCenters : List RGB → ℕ → List RGB) :
    List Effect × Option FinalImage :=
  match img? with
  | none => ([], none)
  | some img =>
    let L := computeLayout img.width img.height
    match getDominantColors (some img) k resized kmLabels kmCenters with
    | Except.error _ => ([], none)
    | Except.ok samples =>
      let counts := samples.map Prod.snd
      let total := counts.sum
      let rects := swatchRects L.borderWidth img.width total counts
      let exifOut := getExifData exif?
      (exifOut.2.map Effect.print ++ [Effect.save "final_output.jpg", Effect.display],
        some ⟨L, rects, exifOut.1, renderExifLines exifOut.1⟩)

/-! ### Entry point (lines 136-145) -/

/-- Digit-and-underscore tail of a Python decimal integer literal:
an underscore must be followed (and, by construction of the caller,
preceded) by a digit. -/
def parseDigitsAux : List Char → ℕ → Option ℕ
  | [], acc => some acc
  | c :: rest, acc =>
    if c.isDigit then parseDigitsAux rest (acc * 10 + (c.toNat - 48))
    else if c = '_' then
      match rest with
      | [] => none
      | d :: _ => if d.isDigit then parseDigitsAux rest acc else none
    else none

/-- A nonempty run of decimal digits (with single embedded underscores). -/
def parseDigits : List Char → Option ℕ
  | [] => none
  | c :: rest => if c.isDigit then parseDigitsAux rest (c.toNat - 48) else none

/-- Strip leading and trailing whitespace, as `int(str)` does. -/
def pyStrip (l : List Char) : List Char :=
  ((l.dropWhile Char.isWhitespace).reverse.dropWhile Char.isWhitespace).reverse

/-- Python `int(s)` on a decimal string: `some n` on success, `none` when
`int` raises `ValueError`. -/
def parsePyInt (s : String) : Option ℤ :=
  match pyStrip s.toList with
  | '+' :: rest => (parseDigits rest).map fun n => (n : ℤ)
  | '-' :: rest => (parseDigits rest).map fun n => -(n : ℤ)
  | l => (parseDigits l).map fun n => (n : ℤ)

/-- Lines 138-142: `k = int(input(...))` with `except ValueError: k = 6`. -/
def readK (s : String) : ℤ :=
  (parsePyInt s).getD 6

/-! ## Theorems about the embedded program -/

/-- Evaluating `int(v * c)` for a nonnegative rational constant `c = p/q`:
the floor equals natural division. -/
lemma intFloor_mul_ratio (a p q : ℕ) :
    (⌊(a : ℚ) * ((p : ℚ) / (q : ℚ))⌋).toNat = p * a / q := by
  rw [show (a : ℚ) * ((p : ℚ) / (q : ℚ)) = ((p * a : ℕ) : ℚ) / ((q : ℕ) : ℚ) by
    push_cast; ring]
  rw [Int.floor_toNat, Nat.floor_div_nat, Nat.floor_natCast]

/-- C4: for every source image of width `W` and height `H`, the output canvas
has width `W + 2*border_width` and height
`H + spacing_between + swatch_area_height + exif_area_height + 2*border_width`,
where `border_width = int(0.1*W) = W/10`, `swatch_area_height = int(0.08*H)`,
`exif_area_height = int(0.2*H)` and `spacing_between = 200`. -/
theorem canvas_dimensions_formula (w h : ℕ) :
    (computeLayout w h).newWidth = w + 2 * (w / 10) ∧
    (computeLayout w h).newHeight = h + 200 + 8 * h / 100 + h / 5 + 2 * (w / 10) ∧
    (computeLayout w h).borderWidth = w / 10 ∧
    (computeLayout w h).swatchAreaHeight = 8 * h / 100 ∧
    (computeLayout w h).exifAreaHeight = h / 5 ∧
    (computeLayout w h).spacingBetween = 200 := by
  have hb : (⌊(w : ℚ) * (1 / 10 : ℚ)⌋).toNat = w / 10 := by
    have := intFloor_mul_ratio w 1 10
    simpa using this
  have hs : (⌊(h : ℚ) * (8 / 100 : ℚ)⌋).toNat = 8 * h / 100 := by
    have := intFloor_mul_ratio h 8 100
    simpa using this
  have he : (⌊(h : ℚ) * (2 / 10 : ℚ)⌋).toNat = h / 5 := by
    have := intFloor_mul_ratio h 2 10
    simp only [Nat.cast_ofNat] at this
    rw [this]
    omega
  refine ⟨?_, ?_, ?_, ?_, ?_, rfl⟩ <;> simp only [computeLayout, hb, hs, he]

unseal Rat.add Rat.sub Rat.mul Rat.inv in
/-- C3: a shutter speed stored as the floating-point number `0.005`
(whose exact binary64 value is `double005`) is rendered by
`get_exif_data` as the string `"1/200 sec"`, obtained through CPython's
bounded-denominator search `Fraction(0.005).limit_denominator()`. -/
theorem shutter_float_renders_one_twohundredth :
    (getExifData (some [("ExposureTime", PyVal.f double005)])).1.bind
      (fun r => r.lookup "Shutter Speed") = some (PyVal.s "1/200 sec") := by
  decide

/-- C5: when the metadata block is absent (`_getexif()` returns `None`),
`get_exif_data` returns the explicit `none` record together with the
diagnostic message, and the run proceeds: the compositor still prints
that diagnostic, still saves `final_output.jpg` and produces a canvas. -/
theorem exif_absent_soft_failure (img : PILImage) (k : ℤ)
    (resized : PILImage → List RGB)
    (kmLabels : List RGB → ℕ → List ℕ)
    (kmCenters : List RGB → ℕ → List RGB)
    (hok : isErr (getDominantColors (some img) k resized kmLabels kmCenters) = false) :
    getExifData none = (none, ["No EXIF data found in the image."]) ∧
    Effect.print "No EXIF data found in the image." ∈
      (createCombinedImage (some img) none k resized kmLabels kmCenters).1 ∧
    Effect.save "final_output.jpg" ∈
      (createCombinedImage (some img) none k resized kmLabels kmCenters).1 ∧
    (createCombinedImage (some img) none k resized kmLabels kmCenters).2 ≠ none := by
  rcases hres : getDominantColors (some img) k resized kmLabels kmCenters with e | samples
  · rw [hres] at hok
    simp [isErr] at hok
  · refine ⟨rfl, ?_, ?_, ?_⟩ <;> simp [createCombinedImage, hres, getExifData]

/-- Witness for `exif_absent_soft_failure` at a concrete one-pixel image. -/
theorem exif_absent_soft_failure_check :
    isErr (getDominantColors (some ⟨1, 1⟩) 1 (fun _ => [(0, 0, 0)])
      (fun _ _ => [0]) (fun _ _ => [(0, 0, 0)])) = false ∧
    (getExifData none = (none, ["No EXIF data found in the image."]) ∧
      Effect.print "No EXIF data found in the image." ∈
        (createCombinedImage (some ⟨1, 1⟩) none 1 (fun _ => [(0, 0, 0)])
          (fun _ _ => [0]) (fun _ _ => [(0, 0, 0)])).1 ∧
      Effect.save "final_output.jpg" ∈
        (createCombinedImage (some ⟨1, 1⟩) none 1 (fun _ => [(0, 0, 0)])
          (fun _ _ => [0]) (fun _ _ => [(0, 0, 0)])).1 ∧
      (createCombinedImage (some ⟨1, 1⟩) none 1 (fun _ => [(0, 0, 0)])
        (fun _ _ => [0]) (fun _ _ => [(0, 0, 0)])).2 ≠ none) :=
  ⟨by decide, exif_absent_soft_failure ⟨1, 1⟩ 1 (fun _ => [(0, 0, 0)])
    (fun _ _ => [0]) (fun _ _ => [(0, 0, 0)]) (by decide)⟩

/-- C8: the `save("final_output.jpg")` effect occurs exactly when every
prior stage succeeded; a hard failure during analysis (unreadable image or
a clustering validation error) aborts the run with no output file written. -/
theorem save_effect_iff_success (img? : Option PILImage)
    (exif? : Option (List (String × PyVal))) (k : ℤ)
    (resized : PILImage → List RGB)
    (kmLabels : List RGB → ℕ → List ℕ)
    (kmCenters : List RGB → ℕ → List RGB) :
    Effect.save "final_output.jpg" ∈
        (createCombinedImage img? exif? k resized kmLabels kmCenters).1 ↔
      (createCombinedImage img? exif? k resized kmLabels kmCenters).2 ≠ none := by
  cases img? with
  | none => simp [createCombinedImage]
  | some img =>
    rcases hres : getDominantColors (some img) k resized kmLabels kmCenters with e | samples
    · simp [createCombinedImage, hres]
    · simp [createCombinedImage, hres]

/-- C9: every non-`none` record returned by `get_exif_data` has exactly the
five keys `Aperture`, `ISO`, `Shutter Speed`, `Camera`, `Lens` in this
iteration order, so the metadata band renders exactly five lines. -/
theorem exif_record_five_keys (exif? : Option (List (String × PyVal)))
    (r : List (String × PyVal)) (h : (getExifData exif?).1 = some r) :
    r.map Prod.fst = ["Aperture", "ISO", "Shutter Speed", "Camera", "Lens"] ∧
    (renderExifLines (some r)).length = 5 := by
  match exif? with
  | none => simp [getExifData] at h
  | some l =>
    by_cases hl : l.isEmpty
    · simp [getExifData, hl] at h
    · simp only [getExifData, hl, Bool.false_eq_true, if_false, Option.some.injEq] at h
      subst h
      exact ⟨rfl, rfl⟩

/-- Witness for `exif_record_five_keys` at a concrete EXIF table. -/
theorem exif_record_five_keys_check :
    (getExifData (some [("Model", PyVal.s "X100")])).1 =
      some [("Aperture", PyVal.s "Unknown"), ("ISO", PyVal.s "Unknown"),
        ("Shutter Speed", PyVal.s "Unknown"), ("Camera", PyVal.s "X100"),
        ("Lens", PyVal.s "Unknown")] ∧
    ([("Aperture", PyVal.s "Unknown"), ("ISO", PyVal.s "Unknown"),
        ("Shutter Speed", PyVal.s "Unknown"), ("Camera", PyVal.s "X100"),
        ("Lens", PyVal.s "Unknown")] : List (String × PyVal)).map Prod.fst =
      ["Aperture", "ISO", "Shutter Speed", "Camera", "Lens"] ∧
    (renderExifLines (some [("Aperture", PyVal.s "Unknown"), ("ISO", PyVal.s "Unknown"),
        ("Shutter Speed", PyVal.s "Unknown"), ("Camera", PyVal.s "X100"),
        ("Lens", PyVal.s "Unknown")])).length = 5 :=
  ⟨by decide,
    (exif_record_five_keys (some [("Model", PyVal.s "X100")]) _ (by decide)).1,
    (exif_record_five_keys (some [("Model", PyVal.s "X100")]) _ (by decide)).2⟩

/-- C7 counterexample: the swatch-count string `"-3"` is not a
representation of a positive integer, yet the entry point does not fall
back to the default 6: Python's `int("-3")` succeeds and `k` becomes `-3`. -/
theorem swatch_count_negative_not_default :
    readK "-3" = -3 ∧ (-3 : ℤ) ≠ 6 := by
  decide

/-- C7 as amended: the fallback to the default count 6 happens exactly for
strings `int()` cannot parse as an integer literal (of any sign); any
parseable string, zero or negative included, is used verbatim. -/
theorem swatch_count_fallback_iff_unparsable (s : String)
    (h : parsePyInt s = none) : readK s = 6 := by
  simp [readK, h]

/-- Witness for `swatch_count_fallback_iff_unparsable` at `"abc"`. -/
theorem swatch_count_fallback_check :
    parsePyInt "abc" = none ∧ readK "abc" = 6 :=
  ⟨by decide, swatch_count_fallback_iff_unparsable "abc" (by decide)⟩

/-- Adjacent swatch rectangles share an edge: the loop recomputes
`int(cumulative_ratio * swatch_area_width)` with the same accumulator
value that produced the previous right edge. -/
lemma swatchGo_chain (b W total : ℕ) (counts : List ℕ) :
    ∀ c : ℚ, List.Chain' (fun p q : ℕ × ℕ => p.2 = q.1) (swatchGo b W total c counts) := by
  induction counts with
  | nil => intro c; simp [swatchGo]
  | cons a rest ih =>
    intro c
    cases rest with
    | nil => simp [swatchGo]
    | cons a2 t =>
      simp only [swatchGo]
      rw [List.chain'_cons]
      exact ⟨rfl, ih _⟩

unseal Rat.add Rat.sub Rat.mul Rat.inv in
/-- C2 (code bug): the spec requires the last rectangle's right edge to
reach the band's right edge, but with seven equal counts (an ordinary
clustering outcome) the float accumulation of `count / total` ends at
`1 - 2^-52`, so on a band of width 100 with border 10 the loop draws the
last right edge at `10 + int(99.99999999999998) = 109`, one pixel short
of `border + width = 110`.  Adjacent rectangles do still share edges.
The evaluation below runs the embedded binary64 loop at that input. -/
theorem swatch_band_final_gap :
    swatchRects 10 100 7 [1, 1, 1, 1, 1, 1, 1] =
      [(10, 24), (24, 38), (38, 52), (52, 67), (67, 81), (81, 95), (95, 109)] ∧
    List.Chain' (fun p q : ℕ × ℕ => p.2 = q.1)
      (swatchRects 10 100 7 [1, 1, 1, 1, 1, 1, 1]) ∧
    (swatchRects 10 100 7 [1, 1, 1, 1, 1, 1, 1]).getLast?.map Prod.snd = some 109 ∧
    (109 : ℕ) ≠ 10 + 100 := by
  have hlist : swatchRects 10 100 7 [1, 1, 1, 1, 1, 1, 1] =
      [(10, 24), (24, 38), (38, 52), (52, 67), (67, 81), (81, 95), (95, 109)] := by
    decide
  refine ⟨hlist, ?_, by rw [hlist]; rfl, by decide⟩
  rw [hlist]
  simp [List.chain'_cons, List.chain'_singleton]

/-- C6 counterexample: four identical pixels and `k = 2`; `k` exceeds the
number of distinct pixel colors (1), yet `get_dominant_colors` does not
fail: sklearn only validates `n_clusters ≤ n_samples`, the degenerate
clustering labels every pixel 0, and the routine silently returns a single
sample instead of aborting. -/
theorem cluster_accepts_k_beyond_distinct_colors :
    isErr (getDominantColors (some ⟨2, 2⟩) 2
      (fun _ => [(7, 7, 7), (7, 7, 7), (7, 7, 7), (7, 7, 7)])
      (fun _ _ => [0, 0, 0, 0]) (fun _ _ => [(7, 7, 7), (7, 7, 7)])) = false ∧
    ([(7, 7, 7), (7, 7, 7), (7, 7, 7), (7, 7, 7)] : List RGB).dedup.length < 2 ∧
    getDominantColors (some ⟨2, 2⟩) 2
      (fun _ => [(7, 7, 7), (7, 7, 7), (7, 7, 7), (7, 7, 7)])
      (fun _ _ => [0, 0, 0, 0]) (fun _ _ => [(7, 7, 7), (7, 7, 7)]) =
      Except.ok [((7, 7, 7), 4)] :=
  ⟨by decide, by decide, rfl⟩

/-- C6 as amended: `get_dominant_colors` fails exactly when the image is
unreadable or `k` is not accepted by sklearn's validation, i.e. `k < 1` or
`k` exceeds the number of analyzed (downscaled) pixels; a `k` that merely
exceeds the number of distinct pixel colors is not reported. -/
theorem cluster_error_iff_unreadable_or_k_exceeds_pixels
    (img? : Option PILImage) (k : ℤ) (resized : PILImage → List RGB)
    (kmLabels : List RGB → ℕ → List ℕ) (kmCenters : List RGB → ℕ → List RGB) :
    isErr (getDominantColors img? k resized kmLabels kmCenters) = true ↔
      img? = none ∨ k < 1 ∨
        ∃ img, img? = some img ∧ ((resized img).length : ℤ) < k := by
  cases img? with
  | none => simp [getDominantColors, isErr]
  | some img =>
    simp only [getDominantColors]
    split_ifs with h1 h2
    · simp [isErr, h1]
    · simp [isErr, h1, h2]
    · simp [isErr, h1, h2]

/-- C10: the downscaled copy analyzed by `get_dominant_colors` has width
and height at most 200 (so at most 40000 pixels are clustered), downscaling
never enlarges, and an image already within 200x200 is analyzed at full
size (every original pixel is clustered). -/
theorem thumbnail_bounds (w h : ℕ) (hw : 1 ≤ w) (hh : 1 ≤ h) :
    (thumbDims w h).1 ≤ 200 ∧ (thumbDims w h).2 ≤ 200 ∧
    (thumbDims w h).1 ≤ w ∧ (thumbDims w h).2 ≤ h ∧
    (thumbDims w h).1 * (thumbDims w h).2 ≤ 40000 ∧
    (w ≤ 200 → h ≤ 200 → thumbDims w h = (w, h)) := by
  by_cases hbox : 200 ≥ w ∧ 200 ≥ h
  · have heq : thumbDims w h = (w, h) := by rw [thumbDims, if_pos hbox]
    rw [heq]
    refine ⟨hbox.1, hbox.2, le_rfl, le_rfl, ?_, fun _ _ => rfl⟩
    calc w * h ≤ 200 * 200 := Nat.mul_le_mul hbox.1 hbox.2
      _ = 40000 := by norm_num
  · have hw0 : (0 : ℚ) < (w : ℚ) := by exact_mod_cast Nat.lt_of_lt_of_le Nat.zero_lt_one hw
    have hh0 : (0 : ℚ) < (h : ℚ) := by exact_mod_cast Nat.lt_of_lt_of_le Nat.zero_lt_one hh
    by_cases hasp : (200 : ℚ) / 200 ≥ (w : ℚ) / (h : ℚ)
    · have haspect1 : (w : ℚ) / (h : ℚ) ≤ 1 := by
        have h200 : (200 : ℚ) / 200 = 1 := by norm_num
        rw [h200] at hasp
        exact hasp
      have hwh : w ≤ h := by exact_mod_cast (div_le_one hh0).mp haspect1
      have hh200 : 200 < h := by
        rcases not_and_or.mp hbox with hx | hx <;> omega
      have heq : thumbDims w h =
          ((roundAspect (200 * ((w : ℚ) / (h : ℚ)))
            (fun n => |(w : ℚ) / (h : ℚ) - (n : ℚ) / 200|)).toNat, 200) := by
        simp only [thumbDims, if_neg hbox, if_pos hasp]
      set v : ℚ := 200 * ((w : ℚ) / (h : ℚ)) with hv
      have hv200 : v ≤ 200 := by
        calc v ≤ 200 * 1 := by
              exact mul_le_mul_of_nonneg_left haspect1 (by norm_num)
          _ = 200 := by norm_num
      have hvw : v ≤ (w : ℚ) := by
        have hv' : v = (200 * (w : ℚ)) / (h : ℚ) := by rw [hv]; ring
        rw [hv', div_le_iff₀ hh0]
        have h200h : (200 : ℚ) ≤ (h : ℚ) := by exact_mod_cast le_of_lt hh200
        nlinarith
      have hceil200 : ⌈v⌉ ≤ (200 : ℤ) := Int.ceil_le.mpr (by exact_mod_cast hv200)
      have hceilw : ⌈v⌉ ≤ (w : ℤ) := Int.ceil_le.mpr (by exact_mod_cast hvw)
      have hch : (if |(w : ℚ) / (h : ℚ) - ((⌊v⌋ : ℤ) : ℚ) / 200| ≤
            |(w : ℚ) / (h : ℚ) - ((⌈v⌉ : ℤ) : ℚ) / 200| then ⌊v⌋ else ⌈v⌉) ≤ ⌈v⌉ := by
        split_ifs
        · exact Int.floor_le_ceil v
        · exact le_rfl
      have hra200 : roundAspect v (fun n => |(w : ℚ) / (h : ℚ) - (n : ℚ) / 200|) ≤ 200 := by
        rw [roundAspect]
        exact max_le (hch.trans hceil200) (by norm_num)
      have hraw : roundAspect v (fun n => |(w : ℚ) / (h : ℚ) - (n : ℚ) / 200|) ≤ (w : ℤ) := by
        rw [roundAspect]
        exact max_le (hch.trans hceilw) (by exact_mod_cast hw)
      rw [heq]
      have t200 : (roundAspect v (fun n => |(w : ℚ) / (h : ℚ) - (n : ℚ) / 200|)).toNat ≤ 200 := by
        omega
      have tw : (roundAspect v (fun n => |(w : ℚ) / (h : ℚ) - (n : ℚ) / 200|)).toNat ≤ w := by
        omega
      refine ⟨t200, le_rfl, tw, le_of_lt hh200, ?_, ?_⟩
      · calc (roundAspect v (fun n => |(w : ℚ) / (h : ℚ) - (n : ℚ) / 200|)).toNat * 200 ≤
            200 * 200 := Nat.mul_le_mul t200 le_rfl
          _ = 40000 := by norm_num
      · intro hw' hh'
        exact absurd ⟨hw', hh'⟩ hbox
    · have haspect1 : 1 < (w : ℚ) / (h : ℚ) := by
        have h200 : (200 : ℚ) / 200 = 1 := by norm_num
        rw [h200] at hasp
        exact lt_of_not_ge hasp
      have hhw : h < w := by exact_mod_cast (one_lt_div hh0).mp haspect1
      have hw200 : 200 < w := by
        rcases not_and_or.mp hbox with hx | hx <;> omega
      have heq : thumbDims w h =
          (200, (roundAspect (200 / ((w : ℚ) / (h : ℚ)))
            (fun n => if n = 0 then 300 else |(w : ℚ) / (h : ℚ) - (200 : ℚ) / (n : ℚ)|)).toNat) := by
        simp only [thumbDims, if_neg hbox, if_neg hasp]
      set u : ℚ := 200 / ((w : ℚ) / (h : ℚ)) with hu
      have hu200 : u ≤ 200 := div_le_self (by norm_num) (le_of_lt haspect1)
      have huh : u ≤ (h : ℚ) := by
        have hu' : u = (200 * (h : ℚ)) / (w : ℚ) := by
          rw [hu, div_div_eq_mul_div]
        rw [hu', div_le_iff₀ hw0]
        have h200w : (200 : ℚ) ≤ (w : ℚ) := by exact_mod_cast le_of_lt hw200
        nlinarith
      have hceil200 : ⌈u⌉ ≤ (200 : ℤ) := Int.ceil_le.mpr (by exact_mod_cast hu200)
      have hceilh : ⌈u⌉ ≤ (h : ℤ) := Int.ceil_le.mpr (by exact_mod_cast huh)
      have hch : (if (fun n : ℤ => if n = 0 then (300 : ℚ) else
            |(w : ℚ) / (h : ℚ) - (200 : ℚ) / (n : ℚ)|) ⌊u⌋ ≤
            (fun n : ℤ => if n = 0 then (300 : ℚ) else
            |(w : ℚ) / (h : ℚ) - (200 : ℚ) / (n : ℚ)|) ⌈u⌉ then ⌊u⌋ else ⌈u⌉) ≤ ⌈u⌉ := by
        split_ifs
        · exact Int.floor_le_ceil u
        · exact le_rfl
      have hra200 : roundAspect u (fun n => if n = 0 then (300 : ℚ) else
          |(w : ℚ) / (h : ℚ) - (200 : ℚ) / (n : ℚ)|) ≤ 200 := by
        rw [roundAspect]
        exact max_le (hch.trans hceil200) (by norm_num)
      have hrah : roundAspect u (fun n => if n = 0 then (300 : ℚ) else
          |(w : ℚ) / (h : ℚ) - (200 : ℚ) / (n : ℚ)|) ≤ (h : ℤ) := by
        rw [roundAspect]
        exact max_le (hch.trans hceilh) (by exact_mod_cast hh)
      rw [heq]
      have t200 : (roundAspect u (fun n => if n = 0 then (300 : ℚ) else
          |(w : ℚ) / (h : ℚ) - (200 : ℚ) / (n : ℚ)|)).toNat ≤ 200 := by omega
      have th : (roundAspect u (fun n => if n = 0 then (300 : ℚ) else
          |(w : ℚ) / (h : ℚ) - (200 : ℚ) / (n : ℚ)|)).toNat ≤ h := by omega
      refine ⟨le_rfl, t200, le_of_lt hw200, th, ?_, ?_⟩
      · calc 200 * (roundAspect u (fun n => if n = 0 then (300 : ℚ) else
              |(w : ℚ) / (h : ℚ) - (200 : ℚ) / (n : ℚ)|)).toNat ≤ 200 * 200 :=
            Nat.mul_le_mul le_rfl t200
          _ = 40000 := by norm_num
      · intro hw' hh'
        exact absurd ⟨hw', hh'⟩ hbox

/-- Under the clustering guarantees (every label below `kn`, every label
hit), `np.unique` on the labels is exactly `0, ..., kn-1`. -/
lemma uniqueSorted_eq_range (labels : List ℕ) (kn : ℕ)
    (hlt : ∀ x ∈ labels, x < kn) (hsurj : ∀ j, j < kn → j ∈ labels) :
    uniqueSorted labels = List.range kn := by
  have hnd1 : (uniqueSorted labels).Nodup :=
    (List.perm_insertionSort (· ≤ ·) labels.dedup).nodup_iff.mpr labels.nodup_dedup
  have hmem : ∀ a, a ∈ uniqueSorted labels ↔ a ∈ List.range kn := by
    intro a
    rw [List.mem_range, uniqueSorted,
      (List.perm_insertionSort (· ≤ ·) labels.dedup).mem_iff, List.mem_dedup]
    exact ⟨fun ha => hlt a ha, fun ha => hsurj a ha⟩
  have hperm : List.Perm (uniqueSorted labels) (List.range kn) :=
    (List.perm_ext_iff_of_nodup hnd1 (List.nodup_range kn)).mpr hmem
  exact List.eq_of_perm_of_sorted hperm
    (List.sorted_insertionSort (· ≤ ·) labels.dedup) (List.sorted_le_range kn)

/-- Reading a list back by positions yields the list. -/
lemma map_getD_range (cs : List ℕ) :
    (List.range cs.length).map (fun i => cs.getD i 0) = cs := by
  apply List.ext_getElem
  · simp
  · intro i h1 h2
    simp [List.getD_eq_getElem?_getD, List.getElem?_eq_getElem h2]

/-- The number of samples produced by the post-processing equals the
number of clusters, provided every label below `kn` occurs. -/
lemma postProcess_length (labels : List ℕ) (centers : List RGB) (kn : ℕ)
    (hlt : ∀ x ∈ labels, x < kn) (hsurj : ∀ j, j < kn → j ∈ labels) :
    (postProcess labels centers).length = kn := by
  simp only [postProcess, List.length_map, argsortDesc]
  rw [(List.perm_insertionSort _ _).length_eq, List.length_range,
    uniqueSorted_eq_range labels kn hlt hsurj, List.length_range]

/-- The per-sample counts of the post-processing always sum to the number
of labelled pixels: sorting permutes the counts and the unique counts of a
list sum to its length. -/
lemma postProcess_sum (labels : List ℕ) (centers : List RGB) :
    ((postProcess labels centers).map Prod.snd).sum = labels.length := by
  simp only [postProcess, List.map_map, Function.comp_def]
  have hperm : List.Perm
      ((argsortDesc ((uniqueSorted labels).map fun j => labels.count j)).map
        (fun i => ((uniqueSorted labels).map fun j => labels.count j).getD i 0))
      ((List.range ((uniqueSorted labels).map fun j => labels.count j).length).map
        (fun i => ((uniqueSorted labels).map fun j => labels.count j).getD i 0)) :=
    (List.perm_insertionSort _ _).map _
  rw [hperm.sum_eq, map_getD_range]
  have hperm2 : List.Perm ((uniqueSorted labels).map (fun j => labels.count j))
      (labels.dedup.map (fun j => labels.count j)) :=
    (List.perm_insertionSort (· ≤ ·) labels.dedup).map _
  rw [hperm2.sum_eq, List.sum_map_count_dedup_eq_length]

/-- The samples produced by the post-processing are ordered by
non-increasing count: `argsort` of the negated counts sorts descending. -/
lemma postProcess_sorted (labels : List ℕ) (centers : List RGB) :
    List.Sorted (· ≥ ·) ((postProcess labels centers).map Prod.snd) := by
  simp only [postProcess, List.map_map, Function.comp_def]
  haveI hto : IsTotal ℕ (fun i j =>
      ((uniqueSorted labels).map fun j => labels.count j).getD j 0 ≤
        ((uniqueSorted labels).map fun j => labels.count j).getD i 0) :=
    ⟨fun a b => le_total _ _⟩
  haveI htr : IsTrans ℕ (fun i j =>
      ((uniqueSorted labels).map fun j => labels.count j).getD j 0 ≤
        ((uniqueSorted labels).map fun j => labels.count j).getD i 0) :=
    ⟨fun _ _ _ h1 h2 => le_trans h2 h1⟩
  have hs := List.sorted_insertionSort (fun i j =>
      ((uniqueSorted labels).map fun j => labels.count j).getD j 0 ≤
        ((uniqueSorted labels).map fun j => labels.count j).getD i 0)
    (List.range ((uniqueSorted labels).map fun j => labels.count j).length)
  exact hs.map _ (fun a b hab => hab)

/-- C1 counterexample: three identical pixels with `k = 2` is accepted by
the clustering routine (no error), yet the degenerate labelling that
sklearn produces for duplicate points yields a single returned sample, not
`k = 2` samples. -/
theorem dominant_colors_fewer_than_k_degenerate :
    isErr (getDominantColors (some ⟨3, 1⟩) 2
      (fun _ => [(5, 5, 5), (5, 5, 5), (5, 5, 5)])
      (fun _ _ => [0, 0, 0]) (fun _ _ => [(5, 5, 5), (5, 5, 5)])) = false ∧
    getDominantColors (some ⟨3, 1⟩) 2
      (fun _ => [(5, 5, 5), (5, 5, 5), (5, 5, 5)])
      (fun _ _ => [0, 0, 0]) (fun _ _ => [(5, 5, 5), (5, 5, 5)]) =
      Except.ok [((5, 5, 5), 3)] ∧
    ([((5, 5, 5), 3)] : List (RGB × ℕ)).length ≠ (2 : ℤ).toNat :=
  ⟨by decide, rfl, by decide⟩

/-- C1 as amended: for a readable image and an accepted `k` (at least 1 and
at most the analyzed pixel count), whenever the clustering labels every
pixel with a label below `k` and assigns every one of the `k` labels to at
least one pixel (sklearn's guarantee whenever `k` does not exceed the
number of distinct pixel values), `get_dominant_colors` returns exactly
`k` samples whose counts sum to the number of pixels of the downscaled
analyzed image, ordered non-increasing by count. -/
theorem dominant_colors_k_sum_sorted (img : PILImage) (k : ℤ)
    (resized : PILImage → List RGB)
    (kmLabels : List RGB → ℕ → List ℕ)
    (kmCenters : List RGB → ℕ → List RGB)
    (hk : 1 ≤ k) (hkn : k ≤ ((resized img).length : ℤ))
    (hlen : (kmLabels (resized img) k.toNat).length = (resized img).length)
    (hlt : ∀ x ∈ kmLabels (resized img) k.toNat, x < k.toNat)
    (hsurj : ∀ j, j < k.toNat → j ∈ kmLabels (resized img) k.toNat) :
    ∃ r, getDominantColors (some img) k resized kmLabels kmCenters = Except.ok r ∧
      r.length = k.toNat ∧
      (r.map Prod.snd).sum = (resized img).length ∧
      List.Sorted (· ≥ ·) (r.map Prod.snd) := by
  have h1 : ¬ k < 1 := not_lt.mpr hk
  have h2 : ¬ ((resized img).length : ℤ) < k := not_lt.mpr hkn
  refine ⟨postProcess (kmLabels (resized img) k.toNat) (kmCenters (resized img) k.toNat),
    ?_, postProcess_length _ _ _ hlt hsurj, ?_, postProcess_sorted _ _⟩
  · simp [getDominantColors, h1, h2]
  · rw [postProcess_sum, hlen]

/-- Witness for `dominant_colors_k_sum_sorted`: three pixels in two
clusters of sizes 2 and 1. -/
theorem dominant_colors_k_sum_sorted_check :
    (1 : ℤ) ≤ 2 ∧
    (2 : ℤ) ≤ (([(1, 1, 1), (1, 1, 1), (9, 9, 9)] : List RGB).length : ℤ) ∧
    (∀ x ∈ ([0, 0, 1] : List ℕ), x < (2 : ℤ).toNat) ∧
    (∀ j, j < (2 : ℤ).toNat → j ∈ ([0, 0, 1] : List ℕ)) ∧
    (∃ r, getDominantColors (some ⟨3, 1⟩) 2
        (fun _ => [(1, 1, 1), (1, 1, 1), (9, 9, 9)])
        (fun _ _ => [0, 0, 1]) (fun _ _ => [(1, 1, 1), (9, 9, 9)]) = Except.ok r ∧
      r.length = (2 : ℤ).toNat ∧
      (r.map Prod.snd).sum = 3 ∧
      List.Sorted (· ≥ ·) (r.map Prod.snd)) :=
  ⟨by decide, by decide, by decide, by decide,
    dominant_colors_k_sum_sorted ⟨3, 1⟩ 2
      (fun _ => [(1, 1, 1), (1, 1, 1), (9, 9, 9)])
      (fun _ _ => [0, 0, 1]) (fun _ _ => [(1, 1, 1), (9, 9, 9)])
      (by decide) (by decide) (by decide) (by decide) (by decide)⟩

/-- Witness for `thumbnail_bounds` at a 300x100 image (downscaled to
200x67 by the aspect-preserving thumbnail). -/
theorem thumbnail_bounds_check :
    1 ≤ 300 ∧ 1 ≤ 100 ∧
    ((thumbDims 300 100).1 ≤ 200 ∧ (thumbDims 300 100).2 ≤ 200 ∧
      (thumbDims 300 100).1 ≤ 300 ∧ (thumbDims 300 100).2 ≤ 100 ∧
      (thumbDims 300 100).1 * (thumbDims 300 100).2 ≤ 40000 ∧
      (300 ≤ 200 → 100 ≤ 200 → thumbDims 300 100 = (300, 100))) :=
  ⟨by decide, by decide, thumbnail_bounds 300 100 (by decide) (by decide)⟩

end PalettePal
